import Mathlib

/-
  Verification of the lazy-vec repository (src/src/lib.rs) against its
  natural-language specification.

  Shallow embedding.  The Rust type `LazyVec<T>` holds
    size          : usize            -- notional size
    values        : Vec<T>           -- the Value Store
    value_indices : Vec<usize>       -- the Ownership Table
    indices       : RawVec<usize>    -- the Index Table (raw, uninitialized)

  `RawVec<usize>` is modelled as a capacity together with a total function
  `mem : Nat -> Nat` giving the contents of memory at every offset.  Offsets
  that were never written hold arbitrary garbage; the garbage is the initial
  function supplied at construction time and is universally quantified in all
  reachability statements.  Reads at offsets at or beyond `cap` are outside
  the allocation in the real program (undefined behaviour); the model lets
  them return the garbage at that offset, which is one faithful image of that
  behaviour, and tracks `cap` so that in-bounds-ness itself can be stated.

  `RawVec::reserve(used_cap, needed_extra_cap)` is modelled from the Rust
  standard library source of the crate's era (liballoc/raw_vec.rs): it
  returns immediately when `cap - used_cap >= needed_extra_cap` and otherwise
  grows the capacity to `max (2*cap) (used_cap + needed_extra_cap)`,
  preserving the contents.  The crate only calls it with `used_cap` equal to
  the current capacity, where the Nat-subtraction model agrees with the
  wrapping subtraction of the original.

  A `Vec<T>` slot created by `set_len` without a preceding write holds
  unspecified contents; such a slot is modelled as `Option.none`, and a slot
  holding a real value `v` as `some v`.

  The two assertion failures of `value_ref` are the spec's two error kinds
  (OutOfRange for the size check, UninitializedSlot for the two validation
  checks); failures on the write path (`value_ref_mut` / `index_mut`), which
  in Rust are panics, are modelled by `Option.none` results.
-/

/-- Model of Rust's raw `RawVec<usize>`: an allocated capacity plus the
contents of memory at every offset (garbage included). -/
structure RawVecNat where
  cap : Nat
  mem : Nat → Nat

/-- Model of `RawVec::new()`: capacity 0; `g` is the ambient memory garbage. -/
def RawVecNat.new (g : Nat → Nat) : RawVecNat := ⟨0, g⟩

/-- Model of `RawVec::with_capacity(c)`: capacity exactly `c`, contents
uninitialized garbage. -/
def RawVecNat.withCapacity (c : Nat) (g : Nat → Nat) : RawVecNat := ⟨c, g⟩

/-- Model of `RawVec::reserve(used_cap, needed_extra_cap)` from the crate-era
standard library: no-op when the spare capacity already suffices, otherwise
grow to `max (2*cap) (used_cap + needed_extra_cap)`.  Reallocation preserves
contents. -/
def RawVecNat.reserve (r : RawVecNat) (used_cap needed_extra_cap : Nat) : RawVecNat :=
  if needed_extra_cap ≤ r.cap - used_cap then r
  else { r with cap := max (2 * r.cap) (used_cap + needed_extra_cap) }

/-- Model of `ptr::read(self.indices.ptr().offset(i))`. -/
def RawVecNat.ptrRead (r : RawVecNat) (i : Nat) : Nat := r.mem i

/-- Model of `ptr::write(self.indices.ptr().offset(i), v)`. -/
def RawVecNat.ptrWrite (r : RawVecNat) (i v : Nat) : RawVecNat :=
  { r with mem := fun x => if x = i then v else r.mem x }

/-- The two read failures named by the spec: `assert!(i < self.size)`
failing is OutOfRange, the two validation asserts failing is
UninitializedSlot. -/
inductive ReadErr where
  | outOfRange
  | uninitSlot
deriving DecidableEq

/-- Shallow embedding of the Rust struct `LazyVec<T>`. -/
structure LazyVec (T : Type) where
  size : Nat
  values : List (Option T)
  value_indices : List Nat
  indices : RawVecNat

/-- Model of `LazyVec::new()`. -/
def LazyVec.new {T : Type} (g : Nat → Nat) : LazyVec T :=
  { size := 0, values := [], value_indices := [], indices := RawVecNat.new g }

/-- Model of `LazyVec::with_capacity(cap)`. -/
def LazyVec.withCapacity {T : Type} (c : Nat) (g : Nat → Nat) : LazyVec T :=
  { size := 0, values := [], value_indices := [], indices := RawVecNat.withCapacity c g }

/-- Model of `LazyVec::cap()`. -/
def LazyVec.cap {T : Type} (s : LazyVec T) : Nat := s.indices.cap

/-- Model of `LazyVec::len()`. -/
def LazyVec.len {T : Type} (s : LazyVec T) : Nat := s.size

/-- The first lines of `value_ref_mut`: read the capacity and, if `i >= cap`,
call `self.indices.reserve(cap, i - cap)`. -/
def LazyVec.ensureCapacity {T : Type} (s : LazyVec T) (i : Nat) : LazyVec T :=
  if s.indices.cap ≤ i then
    { s with indices := s.indices.reserve s.indices.cap (i - s.indices.cap) }
  else s

/-- The first-write branch of `value_ref_mut`: `values.reserve(1)` followed by
`values.set_len(nstacked + 1)` appends one uninitialized slot (`none`);
`value_indices.push(i)`; `ptr::write(ixptr, nstacked)`; and the size update
`if ix >= self.size { self.size = i + 1 }` (note the source tests the garbage
candidate `ix`, not `i`). -/
def LazyVec.pushStep {T : Type} (s : LazyVec T) (i ix nstacked : Nat) : LazyVec T :=
  { s with
      values := s.values ++ [none],
      value_indices := s.value_indices ++ [i],
      indices := s.indices.ptrWrite i nstacked,
      size := if s.size ≤ ix then i + 1 else s.size }

/-- Model of `LazyVec::value_ref_mut(i)`.  Returns the state after the call
together with the position in the Value Store that the returned `&mut T`
refers to; `none` models a panic (the `assert!` on the parallel lengths, or
the final `&mut self.values[ix]` indexing out of bounds).  Note the source
returns `&mut self.values[ix]` with the *pre-branch candidate* `ix` even on
the first-write path (the `&mut self.values[nstacked];` inside the branch is
a discarded statement). -/
def LazyVec.value_ref_mut {T : Type} (s : LazyVec T) (i : Nat) : Option (LazyVec T × Nat) :=
  let s1 := s.ensureCapacity i
  let ix := s1.indices.ptrRead i
  let nstacked := s1.values.length
  if nstacked ≠ s1.value_indices.length then none
  else
    let s2 := if nstacked ≤ ix ∨ s1.value_indices.getD ix (i + 1) ≠ i
              then s1.pushStep i ix nstacked
              else s1
    if ix < s2.values.length then some (s2, ix) else none

/-- Model of a write `a[i] = v` through `IndexMut::index_mut` (which calls
`value_ref_mut`) followed by storing `v` through the returned reference. -/
def LazyVec.write {T : Type} (s : LazyVec T) (i : Nat) (v : T) : Option (LazyVec T) :=
  (s.value_ref_mut i).map (fun p => { p.1 with values := p.1.values.set p.2 (some v) })

/-- Model of `LazyVec::value_ref(i)` (also `Index::index`).  The source's
`self.value_indices[ix]` is guarded by `ix < self.values.len()`; the model
uses `getD` with the never-equal default `i + 1`, which agrees with the
source whenever the two parallel stacks have equal length (an invariant of
every reachable state, proved below).  An `ok none` result would mean the
referenced slot was created by `set_len` but never assigned. -/
def LazyVec.value_ref {T : Type} (s : LazyVec T) (i : Nat) : Except ReadErr (Option T) :=
  if s.size ≤ i then .error .outOfRange
  else
    let ix := s.indices.ptrRead i
    if s.values.length ≤ ix then .error .uninitSlot
    else if s.value_indices.getD ix (i + 1) ≠ i then .error .uninitSlot
    else .ok (s.values.getD ix none)

/-- Run a sequence of writes `a[i] = v` left to right; `none` as soon as one
of them panics. -/
def LazyVec.runWrites {T : Type} (s : LazyVec T) : List (Nat × T) → Option (LazyVec T)
  | [] => some s
  | (i, v) :: ws =>
    match s.write i v with
    | none => none
    | some s1 => s1.runWrites ws

/-- A state is reachable when some sequence of writes, starting from a
container built by `new` or `with_capacity` over arbitrary index-table
garbage, produces it without panicking.  (`new g` is definitionally
`withCapacity 0 g`.) -/
def LazyVec.Reachable {T : Type} (s : LazyVec T) : Prop :=
  ∃ (c : Nat) (g : Nat → Nat) (ws : List (Nat × T)),
    LazyVec.runWrites (LazyVec.withCapacity c g) ws = some s

/-- All-zero garbage: the contents of a freshly zeroed allocation. -/
def gZero : Nat → Nat := fun _ => 0

/-- Garbage that holds 5 at every offset. -/
def gFive : Nat → Nat := fun _ => 5

/-- The structural invariant of reachable states: the Value Store and the
Ownership Table run in parallel, no logical index owns two slots, and every
index recorded in the Ownership Table has a trustworthy Index Table entry
pointing back at its slot. -/
def LazyVec.Inv {T : Type} (s : LazyVec T) : Prop :=
  s.values.length = s.value_indices.length ∧
  s.value_indices.Nodup ∧
  ∀ j ∈ s.value_indices,
    s.indices.ptrRead j < s.values.length ∧
    s.value_indices.getD (s.indices.ptrRead j) (j + 1) = j

/-- State-passing form of `value_ref` (the source takes `&self`): the result
together with the state the container is left in. -/
def LazyVec.read_op {T : Type} (s : LazyVec T) (i : Nat) :
    Except ReadErr (Option T) × LazyVec T :=
  (s.value_ref i, s)

/-- State-passing form of `len` (the source takes `&self`). -/
def LazyVec.len_op {T : Type} (s : LazyVec T) : Nat × LazyVec T := (s.len, s)

/-- State-passing form of `cap` (the source takes `&self`). -/
def LazyVec.cap_op {T : Type} (s : LazyVec T) : Nat × LazyVec T := (s.cap, s)

/-- Concrete reachable state: one write `a[5] = 10` on a fresh zero-garbage
container. -/
def s7 : LazyVec Int :=
  ((LazyVec.new gZero : LazyVec Int).runWrites [(5, 10)]).getD (LazyVec.new gZero)

/-- Concrete reachable state: one write `a[0] = 10` on a fresh zero-garbage
container. -/
def s8 : LazyVec Int :=
  ((LazyVec.new gZero : LazyVec Int).runWrites [(0, 10)]).getD (LazyVec.new gZero)

/-- Concrete reachable state: one write `a[3] = 7` on a fresh zero-garbage
container. -/
def s9 : LazyVec Int :=
  ((LazyVec.new gZero : LazyVec Int).runWrites [(3, 7)]).getD (LazyVec.new gZero)

/-- Claim C1, refuted on the code: after `a[0] = 10; a[2] = 20` on a fresh
zero-garbage container, reading index 0 returns 20, not the most recently
written value 10.  The first-write branch of `value_ref_mut` returns a
reference to `values[ix]` (the garbage candidate) instead of the newly
allocated slot `values[nstacked]`, so the write to index 2 lands in index 0's
slot. -/
theorem c1_last_write_lost :
    ((LazyVec.new gZero : LazyVec Int).runWrites [(0, 10), (2, 20)]).map
        (fun s => s.value_ref 0) = some (.ok (some 20)) := by
  rfl

/-- Claim C2, refuted on the code: after `a[0] = 10; a[10] = 20` on a fresh
zero-garbage container, `len()` is still 1 instead of `max 1 11 = 11`.  The
size update in `value_ref_mut` tests the garbage candidate (`ix >= self.size`)
instead of the written index `i`. -/
theorem c2_len_not_updated :
    ((LazyVec.new gZero : LazyVec Int).runWrites [(0, 10), (10, 20)]).map LazyVec.len
      = some 1 := by
  rfl

/-- Claim C3, refuted on the code: after the single write `a[0] = 10` on a
fresh zero-garbage container, the capacity is 0 while the notional size is 1,
so `capacity >= notional_size` fails.  The growth call
`reserve(cap, i - cap)` never guarantees more than `capacity >= i`. -/
theorem c3_cap_lt_len :
    ((LazyVec.new gZero : LazyVec Int).write 0 10).map (fun s => (s.cap, s.len))
      = some (0, 1) := by
  rfl

/-- Claim C4, refuted on the code: on a fresh container whose index-table
garbage is 5 everywhere, the write `a[0] = 7` panics (the final
`&mut self.values[ix]` indexes the Value Store of length 1 at the garbage
candidate 5), even though no allocation failure is involved. -/
theorem c4_write_panics :
    (LazyVec.new gFive : LazyVec Int).write 0 7 = none := by
  rfl

/-- Claim C5, refuted on the code: on a fresh container the growth step is
triggered for index 0 (since `0 >= cap = 0`), yet it leaves the capacity at 0,
not strictly greater than 0: `reserve(cap, i - cap)` is a no-op when
`i == cap`, so entry 0 of the Index Table stays outside the allocation. -/
theorem c5_growth_off_by_one :
    (LazyVec.new gZero : LazyVec Int).cap ≤ 0 ∧
    ((LazyVec.new gZero : LazyVec Int).ensureCapacity 0).cap = 0 := by
  exact ⟨Nat.le_refl 0, rfl⟩

/-- Reallocation preserves the contents of memory. -/
@[simp]
theorem RawVecNat.reserve_mem (r : RawVecNat) (u e : Nat) : (r.reserve u e).mem = r.mem := by
  unfold RawVecNat.reserve
  split <;> rfl

/-- Reading through a just-written offset. -/
@[simp]
theorem RawVecNat.ptrRead_ptrWrite (r : RawVecNat) (i v j : Nat) :
    (r.ptrWrite i v).ptrRead j = if j = i then v else r.ptrRead j := rfl

/-- The growth step does not touch the Value Store. -/
@[simp]
theorem LazyVec.ensureCapacity_values {T : Type} (s : LazyVec T) (i : Nat) :
    (s.ensureCapacity i).values = s.values := by
  unfold LazyVec.ensureCapacity
  split <;> rfl

/-- The growth step does not touch the Ownership Table. -/
@[simp]
theorem LazyVec.ensureCapacity_value_indices {T : Type} (s : LazyVec T) (i : Nat) :
    (s.ensureCapacity i).value_indices = s.value_indices := by
  unfold LazyVec.ensureCapacity
  split <;> rfl

/-- The growth step does not touch the notional size. -/
@[simp]
theorem LazyVec.ensureCapacity_size {T : Type} (s : LazyVec T) (i : Nat) :
    (s.ensureCapacity i).size = s.size := by
  unfold LazyVec.ensureCapacity
  split <;> rfl

/-- The growth step preserves the contents of the Index Table. -/
@[simp]
theorem LazyVec.ensureCapacity_ptrRead {T : Type} (s : LazyVec T) (i j : Nat) :
    (s.ensureCapacity i).indices.ptrRead j = s.indices.ptrRead j := by
  unfold LazyVec.ensureCapacity RawVecNat.ptrRead
  split
  · rw [RawVecNat.reserve_mem]
  · rfl

/-- Fields of the first-write branch. -/
@[simp]
theorem LazyVec.pushStep_values {T : Type} (s : LazyVec T) (i ix n : Nat) :
    (s.pushStep i ix n).values = s.values ++ [none] := rfl

/-- Ownership Table after the first-write branch. -/
@[simp]
theorem LazyVec.pushStep_value_indices {T : Type} (s : LazyVec T) (i ix n : Nat) :
    (s.pushStep i ix n).value_indices = s.value_indices ++ [i] := rfl

/-- Index Table after the first-write branch. -/
@[simp]
theorem LazyVec.pushStep_ptrRead {T : Type} (s : LazyVec T) (i ix n j : Nat) :
    (s.pushStep i ix n).indices.ptrRead j = if j = i then n else s.indices.ptrRead j := rfl

/-- Notional size after the first-write branch (the source's buggy update). -/
@[simp]
theorem LazyVec.pushStep_size {T : Type} (s : LazyVec T) (i ix n : Nat) :
    (s.pushStep i ix n).size = if s.size ≤ ix then i + 1 else s.size := rfl

/-- Claim C6, confirmed: a read fails with OutOfRange exactly when the index
is at least the notional size, and in that case the result does not depend on
the Index Table at all (the size check precedes the table read). -/
theorem c6_out_of_range_iff {T : Type} (s : LazyVec T) (i : Nat) :
    (s.value_ref i = .error .outOfRange ↔ s.size ≤ i) ∧
    (∀ m : Nat → Nat, s.size ≤ i →
      LazyVec.value_ref { s with indices := { s.indices with mem := m } } i
        = .error .outOfRange) := by
  constructor
  · constructor
    · intro h
      by_contra hlt
      simp only [LazyVec.value_ref, if_neg hlt] at h
      split at h
      · exact ReadErr.noConfusion (Except.error.inj h)
      · split at h
        · exact ReadErr.noConfusion (Except.error.inj h)
        · exact Except.noConfusion h
    · intro h
      simp only [LazyVec.value_ref, if_pos h]
  · intro m h
    simp only [LazyVec.value_ref]
    rw [if_pos h]

/-- Witness for C6 at a concrete input: on a fresh container (notional size
0) the read of index 0 is OutOfRange whatever the Index Table holds. -/
theorem c6_witness :
    LazyVec.value_ref
        { (LazyVec.new gZero : LazyVec Int) with
            indices := { (LazyVec.new gZero : LazyVec Int).indices with mem := gFive } } 0
      = .error .outOfRange :=
  (c6_out_of_range_iff (LazyVec.new gZero) 0).2 gFive (Nat.le_refl 0)

/-- Claim C10, confirmed: the read path (`value_ref`, via `Index`), `len` and
`cap` take the container by shared reference; in the state-passing embedding
they leave the state unchanged, and two successive reads of the same index
return equal results. -/
theorem c10_read_pure {T : Type} (s : LazyVec T) (i : Nat) :
    (s.read_op i).2 = s ∧ s.len_op.2 = s ∧ s.cap_op.2 = s ∧
    ((s.read_op i).2.read_op i).1 = (s.read_op i).1 :=
  ⟨rfl, rfl, rfl, rfl⟩

/-- A successful write preserves the structural invariant: parallel stacks
stay parallel, no index acquires a second slot, and every recorded index
keeps a trustworthy Index Table entry. -/
theorem LazyVec.write_inv {T : Type} {s s' : LazyVec T} {i : Nat} {v : T}
    (hs : s.Inv) (hw : s.write i v = some s') : s'.Inv := by
  obtain ⟨hlen, hnd, htrust⟩ := hs
  obtain ⟨⟨t, ix⟩, hp, hs'⟩ := Option.map_eq_some'.mp hw
  subst hs'
  simp only [LazyVec.value_ref_mut, LazyVec.ensureCapacity_values,
    LazyVec.ensureCapacity_value_indices, LazyVec.ensureCapacity_ptrRead] at hp
  rw [if_neg (fun hne => hne hlen)] at hp
  by_cases hcond : s.values.length ≤ s.indices.ptrRead i ∨
      s.value_indices.getD (s.indices.ptrRead i) (i + 1) ≠ i
  · rw [if_pos hcond] at hp
    have hni : i ∉ s.value_indices := by
      intro hmem
      obtain ⟨h1, h2⟩ := htrust i hmem
      rcases hcond with h | h
      · exact absurd h1 (Nat.not_lt.mpr h)
      · exact h h2
    simp only [LazyVec.pushStep_values, LazyVec.ensureCapacity_values,
      List.length_append] at hp
    split at hp
    · simp only [Option.some.injEq, Prod.mk.injEq] at hp
      obtain ⟨ht, hix⟩ := hp
      subst ht
      subst hix
      refine ⟨?_, ?_, ?_⟩
      · simp only [LazyVec.pushStep_values, LazyVec.pushStep_value_indices,
          LazyVec.ensureCapacity_values, LazyVec.ensureCapacity_value_indices,
          List.length_set, List.length_append, List.length_singleton]
        omega
      · simp only [LazyVec.pushStep_value_indices, LazyVec.ensureCapacity_value_indices]
        rw [List.nodup_append]
        refine ⟨hnd, List.nodup_singleton i, ?_⟩
        intro a ha hb
        rw [List.mem_singleton] at hb
        subst hb
        exact hni ha
      · intro j hj
        simp only [LazyVec.pushStep_value_indices,
          LazyVec.ensureCapacity_value_indices] at hj
        simp only [LazyVec.pushStep_values, LazyVec.pushStep_value_indices,
          LazyVec.pushStep_ptrRead, LazyVec.ensureCapacity_values,
          LazyVec.ensureCapacity_value_indices, LazyVec.ensureCapacity_ptrRead,
          List.length_set, List.length_append, List.length_singleton]
        rw [List.mem_append, List.mem_singleton] at hj
        rcases hj with hj | rfl
        · have hji : j ≠ i := fun h => hni (h ▸ hj)
          rw [if_neg hji]
          obtain ⟨h1, h2⟩ := htrust j hj
          have h3 : s.indices.ptrRead j < s.value_indices.length := by omega
          refine ⟨by omega, ?_⟩
          rw [List.getD_append _ _ _ _ h3]
          exact h2
        · rw [if_pos rfl]
          have h3 : s.value_indices.length ≤ s.values.length := by omega
          refine ⟨by omega, ?_⟩
          rw [List.getD_append_right _ _ _ _ h3]
          rw [hlen]
          simp
    · exact Option.noConfusion hp
  · rw [if_neg hcond] at hp
    obtain ⟨hlt, hgd⟩ := not_or.mp hcond
    rw [Nat.not_le] at hlt
    rw [not_not] at hgd
    simp only [LazyVec.ensureCapacity_values] at hp
    rw [if_pos hlt] at hp
    simp only [Option.some.injEq, Prod.mk.injEq] at hp
    obtain ⟨ht, hix⟩ := hp
    subst ht
    subst hix
    refine ⟨?_, ?_, ?_⟩
    · simp only [LazyVec.ensureCapacity_values, LazyVec.ensureCapacity_value_indices,
        List.length_set]
      exact hlen
    · simpa only [LazyVec.ensureCapacity_value_indices] using hnd
    · intro j hj
      simp only [LazyVec.ensureCapacity_value_indices] at hj
      simp only [LazyVec.ensureCapacity_values, LazyVec.ensureCapacity_value_indices,
        LazyVec.ensureCapacity_ptrRead, List.length_set]
      exact htrust j hj

/-- A successful write can add only the written index to the Ownership
Table. -/
theorem LazyVec.write_vi_mem {T : Type} {s s' : LazyVec T} {i : Nat} {v : T}
    (hw : s.write i v = some s') : ∀ j ∈ s'.value_indices, j ∈ s.value_indices ∨ j = i := by
  obtain ⟨⟨t, ix⟩, hp, hs'⟩ := Option.map_eq_some'.mp hw
  subst hs'
  simp only [LazyVec.value_ref_mut, LazyVec.ensureCapacity_values,
    LazyVec.ensureCapacity_value_indices, LazyVec.ensureCapacity_ptrRead] at hp
  split at hp
  · exact Option.noConfusion hp
  · by_cases hcond : s.values.length ≤ s.indices.ptrRead i ∨
        s.value_indices.getD (s.indices.ptrRead i) (i + 1) ≠ i
    · rw [if_pos hcond] at hp
      split at hp
      · simp only [Option.some.injEq, Prod.mk.injEq] at hp
        obtain ⟨ht, hix⟩ := hp
        subst ht
        intro j hj
        simp only [LazyVec.pushStep_value_indices,
          LazyVec.ensureCapacity_value_indices] at hj
        rw [List.mem_append, List.mem_singleton] at hj
        exact hj
      · exact Option.noConfusion hp
    · rw [if_neg hcond] at hp
      split at hp
      · simp only [Option.some.injEq, Prod.mk.injEq] at hp
        obtain ⟨ht, hix⟩ := hp
        subst ht
        intro j hj
        simp only [LazyVec.ensureCapacity_value_indices] at hj
        exact Or.inl hj
      · exact Option.noConfusion hp

/-- The invariant is carried along any successful run of writes. -/
theorem LazyVec.runWrites_inv {T : Type} :
    ∀ (ws : List (Nat × T)) (s s' : LazyVec T),
      s.Inv → s.runWrites ws = some s' → s'.Inv := by
  intro ws
  induction ws with
  | nil =>
    intro s s' hs hr
    simp only [LazyVec.runWrites, Option.some.injEq] at hr
    subst hr
    exact hs
  | cons hd tl ih =>
    intro s s' hs hr
    obtain ⟨i, v⟩ := hd
    simp only [LazyVec.runWrites] at hr
    cases hw : s.write i v with
    | none => rw [hw] at hr; exact Option.noConfusion hr
    | some s1 => rw [hw] at hr; exact ih s1 s' (LazyVec.write_inv hs hw) hr

/-- Along any successful run of writes, every index recorded in the Ownership
Table was either there at the start or is one of the indices written. -/
theorem LazyVec.runWrites_vi_mem {T : Type} :
    ∀ (ws : List (Nat × T)) (s s' : LazyVec T),
      s.runWrites ws = some s' →
      ∀ j ∈ s'.value_indices, j ∈ s.value_indices ∨ j ∈ ws.map Prod.fst := by
  intro ws
  induction ws with
  | nil =>
    intro s s' hr j hj
    simp only [LazyVec.runWrites, Option.some.injEq] at hr
    subst hr
    exact Or.inl hj
  | cons hd tl ih =>
    intro s s' hr j hj
    obtain ⟨i, v⟩ := hd
    simp only [LazyVec.runWrites] at hr
    cases hw : s.write i v with
    | none => rw [hw] at hr; exact Option.noConfusion hr
    | some s1 =>
      rw [hw] at hr
      rcases ih s1 s' hr j hj with h | h
      · rcases LazyVec.write_vi_mem hw j h with h1 | h1
        · exact Or.inl h1
        · exact Or.inr (by simp [h1])
      · exact Or.inr (by simp [h])

/-- Freshly constructed containers satisfy the invariant. -/
theorem LazyVec.inv_init {T : Type} (c : Nat) (g : Nat → Nat) :
    (LazyVec.withCapacity c g : LazyVec T).Inv := by
  refine ⟨rfl, List.nodup_nil, ?_⟩
  intro j hj
  exact absurd hj (List.not_mem_nil j)

/-- Every reachable state satisfies the structural invariant. -/
theorem LazyVec.reachable_inv {T : Type} {s : LazyVec T} (h : s.Reachable) : s.Inv := by
  obtain ⟨c, g, ws, hr⟩ := h
  exact LazyVec.runWrites_inv ws _ s (LazyVec.inv_init c g) hr

/-- Claim C7, confirmed: in any state reached by a panic-free run of writes,
reading an index below the notional size that was never itself written fails
with UninitializedSlot, because its Index Table candidate is either at or
beyond the Value Store length or owned by a different index.  This holds for
every initial capacity and every garbage content of the Index Table. -/
theorem c7_skipped_index_uninit {T : Type} (c : Nat) (g : Nat → Nat)
    (ws : List (Nat × T)) (s : LazyVec T) (i : Nat)
    (hr : LazyVec.runWrites (LazyVec.withCapacity c g) ws = some s)
    (hi : i < s.size) (hnw : i ∉ ws.map Prod.fst) :
    s.value_ref i = .error .uninitSlot ∧
    (s.values.length ≤ s.indices.ptrRead i ∨
      s.value_indices.getD (s.indices.ptrRead i) (i + 1) ≠ i) := by
  have hmem : ∀ j ∈ s.value_indices, j ∈ ws.map Prod.fst := by
    intro j hj
    rcases LazyVec.runWrites_vi_mem ws _ s hr j hj with h | h
    · exact absurd h (List.not_mem_nil j)
    · exact h
  have hval : s.values.length ≤ s.indices.ptrRead i ∨
      s.value_indices.getD (s.indices.ptrRead i) (i + 1) ≠ i := by
    by_cases hlt : s.indices.ptrRead i < s.values.length
    · right
      by_cases hlt2 : s.indices.ptrRead i < s.value_indices.length
      · intro heq
        apply hnw
        apply hmem i
        rw [List.getD_eq_getElem _ _ hlt2] at heq
        rw [← heq]
        exact List.getElem_mem hlt2
      · rw [List.getD_eq_default _ _ (Nat.not_lt.mp hlt2)]
        omega
    · exact Or.inl (Nat.not_lt.mp hlt)
  refine ⟨?_, hval⟩
  simp only [LazyVec.value_ref]
  rw [if_neg (Nat.not_le.mpr hi)]
  rcases hval with h | h
  · rw [if_pos h]
  · by_cases hlt : s.values.length ≤ s.indices.ptrRead i
    · rw [if_pos hlt]
    · rw [if_neg hlt, if_pos h]

/-- Witness for C7 at a concrete input: after the single write `a[5] = 10` on
a fresh zero-garbage container, index 2 lies below the notional size 6, was
never written, and reading it fails with UninitializedSlot. -/
theorem c7_witness :
    s7.value_ref 2 = .error .uninitSlot ∧
    (s7.values.length ≤ s7.indices.ptrRead 2 ∨
      s7.value_indices.getD (s7.indices.ptrRead 2) (2 + 1) ≠ 2) :=
  c7_skipped_index_uninit 0 gZero [(5, 10)] s7 2 rfl (by decide) (by decide)

/-- Claim C8, confirmed: in every reachable state the Ownership Table has no
duplicate, so each logical index owns at most one Value Store slot; and a
write to an index whose Index Table entry is already trustworthy updates that
slot in place, leaving the Value Store length, the Ownership Table and the
notional size unchanged. -/
theorem c8_one_slot_rewrite_in_place {T : Type} (s : LazyVec T) (h : s.Reachable) :
    s.value_indices.Nodup ∧
    ∀ (i : Nat) (v : T), s.indices.ptrRead i < s.values.length →
      s.value_indices.getD (s.indices.ptrRead i) (i + 1) = i →
      (s.write i v).map (fun t => (t.values, t.value_indices, t.size))
        = some (s.values.set (s.indices.ptrRead i) (some v), s.value_indices, s.size) := by
  obtain ⟨hlen, hnd, htrust⟩ := LazyVec.reachable_inv h
  refine ⟨hnd, ?_⟩
  intro i v hlt hgd
  simp only [LazyVec.write, LazyVec.value_ref_mut, LazyVec.ensureCapacity_values,
    LazyVec.ensureCapacity_value_indices, LazyVec.ensureCapacity_ptrRead]
  rw [if_neg (fun hne => hne hlen)]
  rw [if_neg (not_or.mpr ⟨Nat.not_le.mpr hlt, not_not.mpr hgd⟩)]
  simp only [LazyVec.ensureCapacity_values]
  rw [if_pos hlt]
  simp only [Option.map_some', LazyVec.ensureCapacity_values,
    LazyVec.ensureCapacity_value_indices, LazyVec.ensureCapacity_size]

/-- Witness for C8 at a concrete input: after `a[0] = 10` on a fresh
zero-garbage container, index 0 owns slot 0 and a re-write `a[0] = 99`
updates that slot in place. -/
theorem c8_witness :
    s8.value_indices.Nodup ∧
    (s8.write 0 99).map (fun t => (t.values, t.value_indices, t.size))
      = some (s8.values.set (s8.indices.ptrRead 0) (some 99), s8.value_indices, s8.size) := by
  have h := c8_one_slot_rewrite_in_place s8 ⟨0, gZero, [(0, 10)], rfl⟩
  exact ⟨h.1, h.2 0 99 (by decide) (by decide)⟩

/-- Claim C9, confirmed: in every reachable state the Value Store and the
Ownership Table have equal length; this follows from `new`/`with_capacity`
starting both empty and every write either appending to both or touching
neither. -/
theorem c9_parallel_lengths {T : Type} (s : LazyVec T) (h : s.Reachable) :
    s.values.length = s.value_indices.length :=
  (LazyVec.reachable_inv h).1

/-- Witness for C9 at a concrete input: after `a[3] = 7` on a fresh
zero-garbage container both stacks have length 1. -/
theorem c9_witness : s9.values.length = s9.value_indices.length :=
  c9_parallel_lengths s9 ⟨0, gZero, [(3, 7)], rfl⟩
